import Mathlib

/-!
Verification of the clinical pipeline orchestration engine.

Shallow embedding of:
 - `src/python/orchestration/coordinator.py` (`PHASE_ORDER`, `get_next_phase`,
   `ClinicalPipelineCoordinator.run_single_phase`, `ClinicalPipelineCoordinator.process_note`)
 - `src/python/orchestration/workflow.py` (`run_with_retry`, `execute_phase`)
 - `src/python/orchestration/state.py` (`PhaseStatus`, `WorkflowStatus`, `PhaseResult`,
   `WorkflowState`)
 - `src/python/api/routers/phases.py` (`approve_phase`)

Modelling conventions:
 - Python dicts returned by agents / the coordinator are records with `Option` fields;
   a key is "in" the dict exactly when the field is `some`.
 - A raised Python exception is `Except.error msg`; a normal return is `Except.ok`.
 - The external text-generation agents are inputs: each agent method is a function of
   its content arguments and of the invocation index (so retry behaviour can vary per
   attempt).  The optional `context` dict built by the coordinator does not influence
   any control flow and is not modelled.
 - `time.monotonic()` / `datetime.now()` readings are abstracted by explicit natural
   number clock values supplied at each marking point.
 - Python truthiness of an optional string (`not payer`) is `falsy`: true for `None`
   and for the empty string.
 - Observable effects are logged: `REv.call`/`REv.sleep` for invocations and backoff
   sleeps inside the retry loop, and status-transition events
   `(phase_name, old_status, new_status)` for every status mutation of a phase record.
-/

/-- Python truthiness test `not s` for `s : str | None`. -/
def falsy : Option String → Bool
  | none => true
  | some s => s.isEmpty

/-- `PHASE_ORDER` from coordinator.py. -/
def PHASE_ORDER : List String :=
  ["documentation", "coding", "compliance", "prior_auth", "quality_assurance"]

/-- `get_next_phase(current_phase, skip_prior_auth, payer, procedure)` from
coordinator.py: index the current phase in `PHASE_ORDER` (an unknown phase raises
`ValueError`, caught and turned into `None`); `None` at the last index; otherwise the
next entry, except that a natural successor `prior_auth` is replaced by
`quality_assurance` when `skip_prior_auth or not payer or not procedure`. -/
def get_next_phase (current_phase : String) (skip_prior_auth : Bool)
    (payer procedure : Option String) : Option String :=
  match PHASE_ORDER.indexOf? current_phase with
  | none => none
  | some idx =>
    if PHASE_ORDER.length - 1 ≤ idx then
      none
    else
      let next_phase := PHASE_ORDER.getD (idx + 1) ""
      if next_phase = "prior_auth" && (skip_prior_auth || falsy payer || falsy procedure) then
        some "quality_assurance"
      else
        some next_phase

/-- Token usage sub-dict of an agent payload. -/
structure Usage where
  input_tokens : Nat := 0
  output_tokens : Nat := 0
deriving DecidableEq, Repr

/-- An agent result dict.  Each field is `some` exactly when the corresponding key is
present in the returned Python dict. -/
structure Payload where
  content : Option String := none
  usage : Option Usage := none
  error : Option String := none
  agent : Option String := none
deriving DecidableEq, Repr

/-- Observable events of the retry loop: an invocation of the wrapped operation with
its attempt index, and a blocking sleep with its delay in seconds. -/
inductive REv where
  | call (attempt : Nat)
  | sleep (delay : ℚ)
deriving DecidableEq, Repr

/-- The loop body of `run_with_retry` (workflow.py, lines 49-75), recursing on the
number of retries still allowed.  `attempt` is the Python loop variable.  With no
retries left, the result of the final invocation is returned as is (a clean result is
returned early, a failure payload is the `last_result` returned after the loop); a
raised fault (`Except.error`) always propagates immediately.  The second component is
the trace of invocations and sleeps. -/
def retryAux (fn : Nat → Except String Payload) (base_delay : ℚ) :
    Nat → Nat → Except String Payload × List REv
  | attempt, 0 => (fn attempt, [REv.call attempt])
  | attempt, left + 1 =>
    match fn attempt with
    | .error e => (.error e, [REv.call attempt])
    | .ok result =>
      if result.error.isSome then
        let rest := retryAux fn base_delay (attempt + 1) left
        (rest.1, REv.call attempt :: REv.sleep (base_delay * 2 ^ attempt) :: rest.2)
      else
        (.ok result, [REv.call attempt])

/-- `run_with_retry(fn, max_retries, base_delay)` from workflow.py: the loop runs
`attempt` over `range(max_retries + 1)` starting at 0. -/
def run_with_retry (fn : Nat → Except String Payload) (max_retries : Nat)
    (base_delay : ℚ) : Except String Payload × List REv :=
  retryAux fn base_delay 0 max_retries

/-- Status of an individual phase (`PhaseStatus` in state.py). -/
inductive PhaseStatus where
  | pending
  | running
  | completed
  | failed
  | skipped
deriving DecidableEq, Repr

/-- Status of a workflow (`WorkflowStatus` in state.py; the API mirror in
api/models.py has the same five values). -/
inductive WorkflowStatus where
  | pending
  | in_progress
  | completed
  | failed
  | needs_review
deriving DecidableEq, Repr

/-- `PhaseResult` dataclass from state.py. -/
structure PhaseResult where
  phase_name : String
  agent_name : String
  status : PhaseStatus := .pending
  content : String := ""
  error : Option String := none
  usage : Usage := {}
  started_at : Option Nat := none
  completed_at : Option Nat := none
deriving DecidableEq, Repr

/-- `PhaseResult.mark_running`: set status Running and stamp the start time. -/
def PhaseResult.mark_running (p : PhaseResult) (t : Nat) : PhaseResult :=
  { p with status := .running, started_at := some t }

/-- `PhaseResult.mark_completed`: set status Completed with content/usage and end time. -/
def PhaseResult.mark_completed (p : PhaseResult) (content : String) (usage : Usage)
    (t : Nat) : PhaseResult :=
  { p with status := .completed, content := content, usage := usage,
           completed_at := some t }

/-- `PhaseResult.mark_failed`: set status Failed with the error and end time. -/
def PhaseResult.mark_failed (p : PhaseResult) (error : String) (t : Nat) : PhaseResult :=
  { p with status := .failed, error := some error, completed_at := some t }

/-- `PhaseResult.mark_skipped`: set status Skipped with the end time. -/
def PhaseResult.mark_skipped (p : PhaseResult) (t : Nat) : PhaseResult :=
  { p with status := .skipped, completed_at := some t }

/-- A logged status transition of one phase record:
`(phase_name, status before, status after)`. -/
abbrev TransEv : Type := String × PhaseStatus × PhaseStatus

/-- `WorkflowState` dataclass from state.py, with its five default phase records. -/
structure WorkflowState where
  raw_note : String := ""
  patient_id : Option String := none
  payer : Option String := none
  workflow_id : String := ""
  status : WorkflowStatus := .pending
  started_at : Option Nat := none
  completed_at : Option Nat := none
  documentation : PhaseResult :=
    { phase_name := "documentation", agent_name := "clinical_documentation" }
  coding : PhaseResult :=
    { phase_name := "coding", agent_name := "medical_coding" }
  compliance : PhaseResult :=
    { phase_name := "compliance", agent_name := "compliance" }
  prior_auth : PhaseResult :=
    { phase_name := "prior_auth", agent_name := "prior_authorization" }
  quality_assurance : PhaseResult :=
    { phase_name := "quality_assurance", agent_name := "quality_assurance" }
  skip_prior_auth : Bool := false
deriving DecidableEq, Repr

/-- `WorkflowState.start`: status InProgress, stamp start time. -/
def WorkflowState.start (st : WorkflowState) (t : Nat) : WorkflowState :=
  { st with status := .in_progress, started_at := some t }

/-- `WorkflowState.complete`: status Completed, stamp completion time. -/
def WorkflowState.complete (st : WorkflowState) (t : Nat) : WorkflowState :=
  { st with status := .completed, completed_at := some t }

/-- `WorkflowState.fail`: status Failed, stamp completion time. -/
def WorkflowState.fail (st : WorkflowState) (t : Nat) : WorkflowState :=
  { st with status := .failed, completed_at := some t }

/-- Result of `execute_phase`: the returned (or re-raised) agent result, the updated
phase record, the logged status transitions, and the retry-loop event trace. -/
structure ExecOut where
  ret : Except String Payload
  phase : PhaseResult
  trans : List TransEv
  revs : List REv
deriving Repr

/-- The body of `execute_phase` (workflow.py, lines 100-144) after the invocation
result `rr` is in hand: `mark_running`, then on a raised fault `mark_failed` with the
synthesized message and re-raise; on a failure payload `mark_failed` with
`result["error"]`; otherwise `mark_completed` with `result.get("content", "")` and
`result.get("usage", {})`.  The start time is `t`, the end time `t + 1`. -/
def execStep (p : PhaseResult) (rr : Except String Payload × List REv) (t : Nat) :
    ExecOut :=
  let p1 := p.mark_running t
  let ev1 : TransEv := (p.phase_name, p.status, PhaseStatus.running)
  match rr.1 with
  | .error e =>
    { ret := .error e
      phase := p1.mark_failed ("Unexpected error: " ++ e) (t + 1)
      trans := [ev1, (p.phase_name, PhaseStatus.running, PhaseStatus.failed)]
      revs := rr.2 }
  | .ok result =>
    match result.error with
    | some err =>
      { ret := .ok result
        phase := p1.mark_failed err (t + 1)
        trans := [ev1, (p.phase_name, PhaseStatus.running, PhaseStatus.failed)]
        revs := rr.2 }
    | none =>
      { ret := .ok result
        phase := p1.mark_completed (result.content.getD "") (result.usage.getD {}) (t + 1)
        trans := [ev1, (p.phase_name, PhaseStatus.running, PhaseStatus.completed)]
        revs := rr.2 }

/-- `execute_phase(phase, fn, use_retry=True)` from workflow.py: run the operation
(through `run_with_retry` when `use_retry`, else a single direct call) and update the
record via `execStep`. -/
def execute_phase (p : PhaseResult) (fn : Nat → Except String Payload)
    (use_retry : Bool) (max_retries : Nat) (base_delay : ℚ) (t : Nat) : ExecOut :=
  execStep p
    (if use_retry then run_with_retry fn max_retries base_delay else (fn 0, [REv.call 0]))
    t

/-- The external agents of the coordinator, one behaviour per agent method used by the
pipeline.  Each takes the content arguments the coordinator passes in the source, plus
the invocation index (`run_with_retry` may call it several times). -/
structure Agents where
  structure_note : String → Nat → Except String Payload
  suggest_codes : String → Nat → Except String Payload
  validate : String → String → Nat → Except String Payload
  assess_authorization : String → String → String → Nat → Except String Payload
  review : String → String → String → String → Nat → Except String Payload

/-- Phase 5 of `process_note` (coordinator.py, lines 300-314): always run
`quality_assurance` with the raw note and the documentation / coding / compliance
contents; a raised fault reaches the outer `except` and fails the workflow; a failure
payload sets status NeedsReview (no completion timestamp); success completes the
workflow. -/
def qaStep (ag : Agents) (max_retries : Nat) (base_delay : ℚ)
    (note doc codingC complianceC : String) (st : WorkflowState)
    (log : List TransEv) : WorkflowState × List TransEv :=
  let o5 := execute_phase st.quality_assurance (ag.review note doc codingC complianceC)
    true max_retries base_delay 9
  let st5 := { st with quality_assurance := o5.phase }
  let log5 := log ++ o5.trans
  match o5.ret with
  | .error _ => (st5.fail 100, log5)
  | .ok r5 =>
    if r5.error.isSome then
      ({ st5 with status := .needs_review }, log5)
    else
      (st5.complete 100, log5)

/-- `ClinicalPipelineCoordinator.process_note` (coordinator.py, lines 201-332).
Creates the workflow state, starts it, and runs the five phases.  A failure payload
from documentation / coding / compliance calls `state.fail()` and returns immediately;
a missing `content` key in a successful payload would raise `KeyError` into the outer
`except`, also failing the workflow; `prior_auth` runs only when
`not skip_prior_auth and payer and procedure` and its failure payload is non-fatal,
otherwise the record is marked skipped without invoking the agent; any raised fault is
caught by the outer `except` after `execute_phase` has re-raised, and fails the
workflow.  Also returns the log of all phase-record status transitions, in order. -/
def process_note (ag : Agents) (max_retries : Nat) (base_delay : ℚ) (note : String)
    (patient_id payer procedure : Option String) (skip_prior_auth : Bool)
    (wid : String) : WorkflowState × List TransEv :=
  let st0 : WorkflowState :=
    { raw_note := note, patient_id := patient_id, payer := payer,
      workflow_id := wid, skip_prior_auth := skip_prior_auth }
  let st1 := st0.start 0
  -- Phase 1: Clinical Documentation
  let o1 := execute_phase st1.documentation (ag.structure_note note) true max_retries base_delay 1
  let st2 := { st1 with documentation := o1.phase }
  match o1.ret with
  | .error _ => (st2.fail 100, o1.trans)
  | .ok r1 =>
    if r1.error.isSome then (st2.fail 100, o1.trans)
    else
      match r1.content with
      | none => (st2.fail 100, o1.trans)
      | some doc =>
        -- Phase 2: Medical Coding
        let o2 := execute_phase st2.coding (ag.suggest_codes doc) true max_retries base_delay 3
        let st3 := { st2 with coding := o2.phase }
        let log2 := o1.trans ++ o2.trans
        match o2.ret with
        | .error _ => (st3.fail 100, log2)
        | .ok r2 =>
          if r2.error.isSome then (st3.fail 100, log2)
          else
            match r2.content with
            | none => (st3.fail 100, log2)
            | some codingC =>
              -- Phase 3: Compliance Validation
              let o3 := execute_phase st3.compliance (ag.validate doc codingC) true max_retries base_delay 5
              let st4 := { st3 with compliance := o3.phase }
              let log3 := log2 ++ o3.trans
              match o3.ret with
              | .error _ => (st4.fail 100, log3)
              | .ok r3 =>
                if r3.error.isSome then (st4.fail 100, log3)
                else
                  match r3.content with
                  | none => (st4.fail 100, log3)
                  | some complianceC =>
                    -- Phase 4: Prior Authorization (conditional)
                    if !skip_prior_auth && !(falsy payer) && !(falsy procedure) then
                      let o4 := execute_phase st4.prior_auth
                        (ag.assess_authorization (procedure.getD "") (payer.getD "") doc)
                        true max_retries base_delay 7
                      let st5 := { st4 with prior_auth := o4.phase }
                      let log4 := log3 ++ o4.trans
                      match o4.ret with
                      | .error _ => (st5.fail 100, log4)
                      | .ok _ =>
                        -- Prior auth failure is non-fatal: continue to QA
                        qaStep ag max_retries base_delay note doc codingC complianceC st5 log4
                    else
                      let st5 := { st4 with prior_auth := st4.prior_auth.mark_skipped 7 }
                      let log4 := log3 ++
                        [(("prior_auth" : String), st4.prior_auth.status, PhaseStatus.skipped)]
                      qaStep ag max_retries base_delay note doc codingC complianceC st5 log4

/-- A dict returned by `run_single_phase`; each field is `some` exactly when the key
is present. -/
structure DictResult where
  content : Option String := none
  usage : Option Usage := none
  error : Option String := none
  agent : Option String := none
  duration_seconds : Option ℚ := none
deriving DecidableEq, Repr

/-- The tail of `run_single_phase` around one agent invocation (coordinator.py, lines
129-199): a raised fault is caught by the `except` and returned as
`{error, agent: phase_name, duration_seconds}`; a normal agent result gets
`duration_seconds` added and is returned as is. -/
def finishSingle (phase_name : String) (dur : ℚ) (r : Except String Payload) :
    DictResult :=
  match r with
  | .error e =>
    { error := some e, agent := some phase_name, duration_seconds := some dur }
  | .ok p =>
    { content := p.content, usage := p.usage, error := p.error, agent := p.agent,
      duration_seconds := some dur }

/-- `phase_contents.get(name, "")` on the dict of completed-phase contents. -/
def contentOf (phase_contents : List (String × String)) (name : String) : String :=
  (phase_contents.lookup name).getD ""

/-- `ClinicalPipelineCoordinator.run_single_phase` (coordinator.py, lines 83-199).
Dispatches on `phase_name`; precondition failures and the unknown-phase case return
an `{error, agent}` dict (no `duration_seconds` key) before any agent call; otherwise
the agent is invoked once and the result finished via `finishSingle`.  `dur` is the
measured wall-clock duration. -/
def run_single_phase (ag : Agents) (phase_name raw_note : String)
    (phase_contents : List (String × String)) (payer procedure : Option String)
    (dur : ℚ) : DictResult :=
  if phase_name = "documentation" then
    finishSingle phase_name dur (ag.structure_note raw_note 0)
  else if phase_name = "coding" then
    let doc_content := contentOf phase_contents "documentation"
    if doc_content.isEmpty then
      { error := some "Documentation phase must be completed first",
        agent := some "medical_coding" }
    else
      finishSingle phase_name dur (ag.suggest_codes doc_content 0)
  else if phase_name = "compliance" then
    let doc_content := contentOf phase_contents "documentation"
    let coding_content := contentOf phase_contents "coding"
    if doc_content.isEmpty || coding_content.isEmpty then
      { error := some "Documentation and Coding phases must be completed first",
        agent := some "compliance" }
    else
      finishSingle phase_name dur (ag.validate doc_content coding_content 0)
  else if phase_name = "prior_auth" then
    let doc_content := contentOf phase_contents "documentation"
    if doc_content.isEmpty || falsy payer || falsy procedure then
      { error := some "Documentation, payer, and procedure are required",
        agent := some "prior_authorization" }
    else
      finishSingle phase_name dur
        (ag.assess_authorization (procedure.getD "") (payer.getD "") doc_content 0)
  else if phase_name = "quality_assurance" then
    let doc_content := contentOf phase_contents "documentation"
    let coding_content := contentOf phase_contents "coding"
    let compliance_content := contentOf phase_contents "compliance"
    if doc_content.isEmpty || coding_content.isEmpty then
      { error := some "Prior phases must be completed first",
        agent := some "quality_assurance" }
    else
      finishSingle phase_name dur
        (ag.review raw_note doc_content coding_content compliance_content 0)
  else
    { error := some ("Unknown phase: " ++ phase_name), agent := some "coordinator" }

/-- A stored `PhaseResult` row as used by the approve endpoint (api/models.py). -/
structure ApiPhaseRow where
  phase_name : String
  status : PhaseStatus
  reviewed_at : Option Nat := none
  reviewed_by_user_id : Option Nat := none
deriving DecidableEq, Repr

/-- A stored `Workflow` row as used by the approve endpoint (api/models.py). -/
structure ApiWorkflow where
  current_phase : String
  status : WorkflowStatus
  skip_prior_auth : Bool := false
  payer : Option String := none
  procedure : Option String := none
  completed_at : Option Nat := none
deriving DecidableEq, Repr

/-- An HTTPException: (status code, detail). -/
abbrev HttpErr : Type := Nat × String

/-- `approve_phase` (api/routers/phases.py, lines 251-302), given the workflow row and
the phase-result row looked up for `(workflow_id, phase_name)` (`none` when the row is
missing).  Rejects (404 / 400) before any mutation; on approval stamps
`reviewed_at`/`reviewed_by_user_id`, computes `get_next_phase`, and either advances
`current_phase` with workflow status Pending, or sets `current_phase = "done"` and
workflow Completed with a completion timestamp.  Returns the updated rows and the
`next_phase` field of the response. -/
def approve_phase (wf : ApiWorkflow) (row? : Option ApiPhaseRow) (phase_name : String)
    (user_id : Nat) (now : Nat) :
    Except HttpErr (ApiWorkflow × ApiPhaseRow × Option String) :=
  match row? with
  | none => .error (404, "Phase result not found")
  | some row =>
    if row.status ≠ PhaseStatus.completed then
      .error (400, "Phase must be completed before approval")
    else
      let row' := { row with reviewed_at := some now,
                             reviewed_by_user_id := some user_id }
      let next_phase :=
        get_next_phase phase_name wf.skip_prior_auth wf.payer wf.procedure
      match next_phase with
      | some np =>
        .ok ({ wf with current_phase := np, status := .pending }, row', some np)
      | none =>
        .ok ({ wf with current_phase := "done", status := .completed,
                       completed_at := some now }, row', none)

/-! ### Retry-loop lemmas -/

/-- The invocation/sleep trace the retry loop produces when attempts
`a, a+1, ..., a+k-1` return failure payloads and attempt `a+k` returns a clean
result: each failed attempt contributes its call and a backoff sleep of
`base_delay * 2 ^ attempt`. -/
def expectedTrace (b : ℚ) : Nat → Nat → List REv
  | a, 0 => [REv.call a]
  | a, k + 1 => REv.call a :: REv.sleep (b * 2 ^ a) :: expectedTrace b (a + 1) k

theorem retryAux_raise (fn : Nat → Except String Payload) (b : ℚ) (a l : Nat)
    (e : String) (h : fn a = .error e) :
    retryAux fn b a l = (.error e, [REv.call a]) := by
  cases l <;> simp [retryAux, h]

theorem retryAux_first_ok (fn : Nat → Except String Payload) (b : ℚ) (a l : Nat)
    (p : Payload) (h : fn a = .ok p) (hp : p.error = none) :
    retryAux fn b a l = (.ok p, [REv.call a]) := by
  cases l <;> simp [retryAux, h, hp]

theorem retryAux_const_fail (fn : Nat → Except String Payload) (b : ℚ) (p : Payload)
    (hf : ∀ k, fn k = .ok p) (hp : p.error.isSome) :
    ∀ l a, (retryAux fn b a l).1 = .ok p := by
  intro l
  induction l with
  | zero => intro a; simp [retryAux, hf a]
  | succ n ih => intro a; simp [retryAux, hf a, hp, ih (a + 1)]

theorem retryAux_last (fn : Nat → Except String Payload) (b : ℚ) :
    ∀ l a, (∀ k, k ≤ l → ∃ q, fn (a + k) = .ok q ∧ q.error.isSome) →
    (retryAux fn b a l).1 = fn (a + l) := by
  intro l
  induction l with
  | zero => intro a _; simp [retryAux]
  | succ n ih =>
    intro a h
    obtain ⟨q, hq, hqe⟩ := h 0 (Nat.zero_le _)
    rw [Nat.add_zero] at hq
    have ihh := ih (a + 1) (fun k hk => by
      have := h (k + 1) (by omega)
      simpa [show a + (k + 1) = a + 1 + k by omega] using this)
    simp [retryAux, hq, hqe, ihh, show a + 1 + n = a + (n + 1) by omega]

theorem retryAux_no_raise (fn : Nat → Except String Payload) (b : ℚ) :
    ∀ l a, (∀ k, ∃ q, fn k = .ok q) → ∃ q, (retryAux fn b a l).1 = .ok q := by
  intro l
  induction l with
  | zero => intro a h; obtain ⟨q, hq⟩ := h a; exact ⟨q, by simp [retryAux, hq]⟩
  | succ n ih =>
    intro a h
    obtain ⟨q, hq⟩ := h a
    by_cases hqe : q.error.isSome
    · simpa [retryAux, hq, hqe] using ih (a + 1) h
    · exact ⟨q, by simp [retryAux, hq, hqe]⟩

theorem retryAux_spec (fn : Nat → Except String Payload) (b : ℚ) :
    ∀ k a l (q : Payload), k ≤ l →
    (∀ i, i < k → ∃ p, fn (a + i) = .ok p ∧ p.error.isSome) →
    fn (a + k) = .ok q → q.error = none →
    retryAux fn b a l = (.ok q, expectedTrace b a k) := by
  intro k
  induction k with
  | zero =>
    intro a l q _ _ hq hqe
    simpa [expectedTrace] using retryAux_first_ok fn b a l q (by simpa using hq) hqe
  | succ n ih =>
    intro a l q hkl hfail hq hqe
    obtain ⟨p0, hp0, hp0e⟩ := hfail 0 (Nat.succ_pos n)
    rw [Nat.add_zero] at hp0
    obtain ⟨l', rfl⟩ : ∃ l', l = l' + 1 := ⟨l - 1, by omega⟩
    have ihh := ih (a + 1) l' q (by omega)
      (fun i hi => by
        have := hfail (i + 1) (by omega)
        simpa [show a + (i + 1) = a + 1 + i by omega] using this)
      (by simpa [show a + (n + 1) = a + 1 + n by omega] using hq) hqe
    simp [retryAux, hp0, hp0e, ihh, expectedTrace]

/-! ### Shared concrete payloads and agents for witnesses and counterexamples -/

/-- A clean success payload, as the external contract produces on success. -/
def okPayload : Payload :=
  { content := some "generated", usage := some {}, agent := some "agent" }

/-- A graceful failure payload, as the external contract produces on soft failure. -/
def errPayload : Payload :=
  { content := some "", agent := some "agent", error := some "API error: rate limit" }

/-- Agents that always succeed cleanly. -/
def agOK : Agents :=
  { structure_note := fun _ _ => .ok okPayload
    suggest_codes := fun _ _ => .ok okPayload
    validate := fun _ _ _ => .ok okPayload
    assess_authorization := fun _ _ _ _ => .ok okPayload
    review := fun _ _ _ _ _ => .ok okPayload }

/-! ### C1: the phase graph successor function -/

/-- C1: `get_next_phase` is a pure function of its four arguments; for each phase of
the fixed order it returns the immediately following phase, except that a natural
successor `prior_auth` becomes `quality_assurance` when `skip_prior_auth` is true or
`payer` is absent or `procedure` is absent (absent: `None` or empty, Python
truthiness); it returns `none` for the last phase `quality_assurance` and for an
unrecognized phase; and `get_next_phase "compliance" false none (some "99214") =
some "quality_assurance"`. -/
theorem C1_get_next_phase :
    (∀ s p q, get_next_phase "documentation" s p q = some "coding") ∧
    (∀ s p q, get_next_phase "coding" s p q = some "compliance") ∧
    (∀ s p q, get_next_phase "compliance" s p q =
      if s || falsy p || falsy q then some "quality_assurance" else some "prior_auth") ∧
    (∀ s p q, get_next_phase "prior_auth" s p q = some "quality_assurance") ∧
    (∀ s p q, get_next_phase "quality_assurance" s p q = none) ∧
    (∀ c s p q, c ∉ PHASE_ORDER → get_next_phase c s p q = none) ∧
    get_next_phase "compliance" false none (some "99214") = some "quality_assurance" := by
  refine ⟨fun s p q => rfl, fun s p q => rfl, ?_, fun s p q => rfl, fun s p q => rfl,
    ?_, rfl⟩
  · intro s p q
    simp only [get_next_phase, PHASE_ORDER]
    rw [show List.indexOf? "compliance"
      ["documentation", "coding", "compliance", "prior_auth", "quality_assurance"] =
        some 2 from rfl]
    cases s <;> cases hp : falsy p <;> cases hq : falsy q <;> simp [hp, hq]
  · intro c s p q hc
    have h : PHASE_ORDER.indexOf? c = none := by
      rw [List.indexOf?_eq_none_iff]
      intro x hx h
      rw [beq_iff_eq] at h
      exact hc (h ▸ hx)
    simp [get_next_phase, h]

/-- Witness for C1 at a concrete unrecognized phase. -/
theorem C1_get_next_phase_witness :
    ("bogus" ∉ PHASE_ORDER) ∧ get_next_phase "bogus" false none none = none :=
  ⟨by decide, C1_get_next_phase.2.2.2.2.2.1 "bogus" false none none (by decide)⟩

/-! ### C6: the retry loop -/

/-- C6: `run_with_retry` re-invokes the operation only while the returned payload
contains an error, sleeping `base_delay * 2 ^ attempt_index` between attempts, with at
most `max_retries` additional tries after the first invocation; it returns the first
non-error payload unchanged (first conjunct, which also pins the exact call/sleep
trace), or the last failure payload when all attempts exhaust (second conjunct); with
an operation failing twice then succeeding and `max_retries = 3` it returns the
success after exactly 3 invocations with observed delays `base_delay` and
`base_delay * 2` (third conjunct). -/
theorem C6_run_with_retry :
    (∀ (fn : Nat → Except String Payload) (b : ℚ) (mr k : Nat) (q : Payload),
      k ≤ mr →
      (∀ i, i < k → ∃ p, fn i = .ok p ∧ p.error.isSome) →
      fn k = .ok q → q.error = none →
      run_with_retry fn mr b = (.ok q, expectedTrace b 0 k)) ∧
    (∀ (fn : Nat → Except String Payload) (b : ℚ) (mr : Nat),
      (∀ k, k ≤ mr → ∃ q, fn k = .ok q ∧ q.error.isSome) →
      (run_with_retry fn mr b).1 = fn mr) ∧
    (∀ (b : ℚ) (p q : Payload), p.error.isSome → q.error = none →
      run_with_retry (fun i => if i < 2 then Except.ok p else Except.ok q) 3 b =
        (.ok q, [REv.call 0, REv.sleep b, REv.call 1, REv.sleep (b * 2), REv.call 2])) := by
  refine ⟨?_, ?_, ?_⟩
  · intro fn b mr k q hk hfail hq hqe
    exact retryAux_spec fn b k 0 mr q hk (by simpa using hfail) (by simpa using hq) hqe
  · intro fn b mr hall
    simpa using retryAux_last fn b mr 0 (by simpa using hall)
  · intro b p q hp hq
    have h := retryAux_spec (fun i => if i < 2 then Except.ok p else Except.ok q) b 2 0 3 q
      (by omega) (fun i hi => ⟨p, by simp [hi], hp⟩) (by simp) hq
    simpa [run_with_retry, expectedTrace] using h

/-- Witness for C6 with a concrete operation failing twice then succeeding. -/
theorem C6_run_with_retry_witness :
    run_with_retry (fun i => if i < 2 then Except.ok errPayload else Except.ok okPayload) 3 1 =
      (.ok okPayload, [REv.call 0, REv.sleep 1, REv.call 1, REv.sleep 2, REv.call 2]) := by
  have h := C6_run_with_retry.2.2 1 errPayload okPayload (by simp [errPayload])
    (by simp [okPayload])
  simpa using h

/-! ### execute_phase lemmas -/

theorem execStep_raise (p : PhaseResult) (rr : Except String Payload × List REv)
    (t : Nat) (e : String) (h : rr.1 = .error e) :
    execStep p rr t =
      { ret := .error e
        phase := (p.mark_running t).mark_failed ("Unexpected error: " ++ e) (t + 1)
        trans := [(p.phase_name, p.status, PhaseStatus.running),
                  (p.phase_name, PhaseStatus.running, PhaseStatus.failed)]
        revs := rr.2 } := by
  obtain ⟨r, evs⟩ := rr
  cases r with
  | error e2 => simp only [Except.error.injEq] at h; simp [execStep, h]
  | ok q => simp at h

theorem execStep_failpay (p : PhaseResult) (rr : Except String Payload × List REv)
    (t : Nat) (q : Payload) (e : String) (h : rr.1 = .ok q) (hq : q.error = some e) :
    execStep p rr t =
      { ret := .ok q
        phase := (p.mark_running t).mark_failed e (t + 1)
        trans := [(p.phase_name, p.status, PhaseStatus.running),
                  (p.phase_name, PhaseStatus.running, PhaseStatus.failed)]
        revs := rr.2 } := by
  obtain ⟨r, evs⟩ := rr
  cases r with
  | error e2 => simp at h
  | ok q2 =>
    simp only [Except.ok.injEq] at h
    subst h
    simp [execStep, hq]

theorem execStep_ok (p : PhaseResult) (rr : Except String Payload × List REv)
    (t : Nat) (q : Payload) (h : rr.1 = .ok q) (hq : q.error = none) :
    execStep p rr t =
      { ret := .ok q
        phase := (p.mark_running t).mark_completed (q.content.getD "")
          (q.usage.getD {}) (t + 1)
        trans := [(p.phase_name, p.status, PhaseStatus.running),
                  (p.phase_name, PhaseStatus.running, PhaseStatus.completed)]
        revs := rr.2 } := by
  obtain ⟨r, evs⟩ := rr
  cases r with
  | error e2 => simp at h
  | ok q2 =>
    simp only [Except.ok.injEq] at h
    subst h
    simp [execStep, hq]

/-- Every status transition logged by `execStep` is one of the three shapes:
entering Running from the record's prior status, or leaving Running for Failed or
Completed. -/
theorem execStep_trans_shape (p : PhaseResult) (rr : Except String Payload × List REv)
    (t : Nat) :
    ∀ ev ∈ (execStep p rr t).trans,
      ev = (p.phase_name, p.status, PhaseStatus.running) ∨
      ev = (p.phase_name, PhaseStatus.running, PhaseStatus.failed) ∨
      ev = (p.phase_name, PhaseStatus.running, PhaseStatus.completed) := by
  obtain ⟨r, evs⟩ := rr
  cases r with
  | error e => intro ev hev; simp [execStep] at hev; tauto
  | ok q =>
    cases hq : q.error with
    | none => intro ev hev; simp [execStep, hq] at hev; tauto
    | some e => intro ev hev; simp [execStep, hq] at hev; tauto

/-- `execute_phase` with retry enabled is `execStep` over `run_with_retry`. -/
theorem execute_phase_retry (p : PhaseResult) (fn : Nat → Except String Payload)
    (mr : Nat) (b : ℚ) (t : Nat) :
    execute_phase p fn true mr b t = execStep p (run_with_retry fn mr b) t := by
  simp [execute_phase]

/-! ### C7: raised faults are never retried -/

/-- C7: a raised fault from the operation is never retried: when the operation raises
on its first invocation, `run_with_retry` lets the exception propagate with the
operation invoked exactly once (the trace is a single call and no sleep); and
`execute_phase` upon a raised fault marks the record Failed with the synthesized
message `"Unexpected error: " ++ e` and re-raises the same exception. -/
theorem C7_raised_fault :
    (∀ (fn : Nat → Except String Payload) (mr : Nat) (b : ℚ) (e : String),
      fn 0 = .error e → run_with_retry fn mr b = (.error e, [REv.call 0])) ∧
    (∀ (p : PhaseResult) (fn : Nat → Except String Payload) (mr : Nat) (b : ℚ)
        (t : Nat) (e : String), fn 0 = .error e →
      (execute_phase p fn true mr b t).ret = .error e ∧
      (execute_phase p fn true mr b t).phase =
        (p.mark_running t).mark_failed ("Unexpected error: " ++ e) (t + 1)) := by
  have h1 : ∀ (fn : Nat → Except String Payload) (mr : Nat) (b : ℚ) (e : String),
      fn 0 = .error e → run_with_retry fn mr b = (.error e, [REv.call 0]) := by
    intro fn mr b e h
    exact retryAux_raise fn b 0 mr e h
  refine ⟨h1, ?_⟩
  intro p fn mr b t e h
  rw [execute_phase_retry, execStep_raise p _ t e (by rw [h1 fn mr b e h])]
  exact ⟨rfl, rfl⟩

/-- Witness for C7 at a concrete always-raising operation. -/
theorem C7_raised_fault_witness :
    run_with_retry (fun _ => .error "connection reset") 3 1 =
      (.error "connection reset", [REv.call 0]) :=
  C7_raised_fault.1 (fun _ => .error "connection reset") 3 1 "connection reset" rfl

/-! ### C2: phase-record status transitions -/

/-- The transition relation asserted by the spec invariant:
Pending→Running→{Completed|Failed|Skipped} only. -/
def claimAllowed : TransEv → Bool
  | (_, .pending, .running) => true
  | (_, .running, .completed) => true
  | (_, .running, .failed) => true
  | (_, .running, .skipped) => true
  | _ => false

/-- The transition relation the code actually obeys: the spec relation plus the
direct Pending→Skipped step taken by `state.prior_auth.mark_skipped()` when the
prior-auth phase is skipped without execution. -/
def amendedAllowed (ev : TransEv) : Bool :=
  claimAllowed ev ||
    (match ev with
     | (_, .pending, .skipped) => true
     | _ => false)

theorem execStep_trans_allowed (p : PhaseResult) (rr : Except String Payload × List REv)
    (t : Nat) (hp : p.status = .pending) :
    ∀ ev ∈ (execStep p rr t).trans, amendedAllowed ev = true := by
  intro ev hev
  rcases execStep_trans_shape p rr t ev hev with h | h | h <;>
    subst h <;> simp [amendedAllowed, claimAllowed, hp]

/-- C2 counterexample: in a full-pipeline run in which prior authorization is skipped
(payer absent), the prior_auth record moves directly from Pending to Skipped, a
transition outside Pending→Running→{Completed|Failed|Skipped}; so not every
transition performed by `process_note` is of the claimed shape. -/
theorem C2_counterexample :
    ¬ (∀ ev ∈ (process_note agOK 0 1 "note" none none (some "99213") false "wf").2,
        claimAllowed ev = true) := by
  decide

/-- C2 amended: in every full-pipeline run, every status transition of every phase
record follows Pending→Running→{Completed|Failed|Skipped}, with the single additional
step Pending→Skipped used when prior authorization is skipped without execution; a
record never reverts within one execution attempt. -/
theorem C2_amended_transitions (ag : Agents) (mr : Nat) (b : ℚ) (note : String)
    (pid payer proc : Option String) (skip : Bool) (wid : String) :
    ∀ ev ∈ (process_note ag mr b note pid payer proc skip wid).2,
      amendedAllowed ev = true := by
  intro ev hev
  simp only [process_note, qaStep, execute_phase_retry] at hev
  repeat' split at hev
  all_goals try simp only [List.mem_append, List.mem_singleton] at hev
  all_goals repeat' rcases hev with hev | hev
  all_goals
    first
      | exact execStep_trans_allowed _ _ _ rfl ev hev
      | (subst hev; rfl)
      | rfl

/-- Witness for C2 (amended) on a concrete skipped-prior-auth run. -/
theorem C2_amended_transitions_witness :
    (("prior_auth" : String), PhaseStatus.pending, PhaseStatus.skipped) ∈
      (process_note agOK 0 1 "note" none none (some "99213") false "wf").2 ∧
    amendedAllowed (("prior_auth" : String), PhaseStatus.pending, PhaseStatus.skipped) = true :=
  ⟨by decide,
   C2_amended_transitions agOK 0 1 "note" none none (some "99213") false "wf"
     (("prior_auth" : String), PhaseStatus.pending, PhaseStatus.skipped) (by decide)⟩

/-! ### C3: failures of the first three phases are fatal -/

/-- C3: in full mode, `process_note` runs documentation, coding, compliance strictly
in that order, and a failure payload from any of the three is fatal: the failing
record is marked Failed, the workflow is Failed, the run returns immediately and every
later phase record stays Pending.  First conjunct: documentation failure (also pins
the transition log to the two documentation events, so nothing else ran); second:
coding failure after clean documentation; third: compliance failure after clean
documentation and coding. -/
theorem C3_early_phase_failure_fatal :
    (∀ (ag : Agents) (mr : Nat) (b : ℚ) (note : String) (pid payer proc : Option String)
        (skip : Bool) (wid : String) (p : Payload) (e : String),
      (∀ k, ag.structure_note note k = .ok p) → p.error = some e →
      (process_note ag mr b note pid payer proc skip wid).1.status = .failed ∧
      (process_note ag mr b note pid payer proc skip wid).1.documentation.status = .failed ∧
      (process_note ag mr b note pid payer proc skip wid).1.documentation.error = some e ∧
      (process_note ag mr b note pid payer proc skip wid).1.coding.status = .pending ∧
      (process_note ag mr b note pid payer proc skip wid).1.compliance.status = .pending ∧
      (process_note ag mr b note pid payer proc skip wid).1.prior_auth.status = .pending ∧
      (process_note ag mr b note pid payer proc skip wid).1.quality_assurance.status = .pending ∧
      (process_note ag mr b note pid payer proc skip wid).2 =
        [(("documentation" : String), PhaseStatus.pending, PhaseStatus.running),
         (("documentation" : String), PhaseStatus.running, PhaseStatus.failed)]) ∧
    (∀ (ag : Agents) (mr : Nat) (b : ℚ) (note : String) (pid payer proc : Option String)
        (skip : Bool) (wid : String) (pd : Payload) (dc : String) (p : Payload) (e : String),
      (∀ k, ag.structure_note note k = .ok pd) → pd.error = none → pd.content = some dc →
      (∀ s k, ag.suggest_codes s k = .ok p) → p.error = some e →
      (process_note ag mr b note pid payer proc skip wid).1.status = .failed ∧
      (process_note ag mr b note pid payer proc skip wid).1.documentation.status = .completed ∧
      (process_note ag mr b note pid payer proc skip wid).1.coding.status = .failed ∧
      (process_note ag mr b note pid payer proc skip wid).1.coding.error = some e ∧
      (process_note ag mr b note pid payer proc skip wid).1.compliance.status = .pending ∧
      (process_note ag mr b note pid payer proc skip wid).1.prior_auth.status = .pending ∧
      (process_note ag mr b note pid payer proc skip wid).1.quality_assurance.status = .pending) ∧
    (∀ (ag : Agents) (mr : Nat) (b : ℚ) (note : String) (pid payer proc : Option String)
        (skip : Bool) (wid : String) (pd pc : Payload) (dc cc : String) (p : Payload) (e : String),
      (∀ k, ag.structure_note note k = .ok pd) → pd.error = none → pd.content = some dc →
      (∀ s k, ag.suggest_codes s k = .ok pc) → pc.error = none → pc.content = some cc →
      (∀ s t k, ag.validate s t k = .ok p) → p.error = some e →
      (process_note ag mr b note pid payer proc skip wid).1.status = .failed ∧
      (process_note ag mr b note pid payer proc skip wid).1.documentation.status = .completed ∧
      (process_note ag mr b note pid payer proc skip wid).1.coding.status = .completed ∧
      (process_note ag mr b note pid payer proc skip wid).1.compliance.status = .failed ∧
      (process_note ag mr b note pid payer proc skip wid).1.compliance.error = some e ∧
      (process_note ag mr b note pid payer proc skip wid).1.prior_auth.status = .pending ∧
      (process_note ag mr b note pid payer proc skip wid).1.quality_assurance.status = .pending) := by
  refine ⟨?_, ?_, ?_⟩
  · intro ag mr b note pid payer proc skip wid p e hd hpe
    have hrr : (run_with_retry (ag.structure_note note) mr b).1 = .ok p :=
      retryAux_const_fail _ b p hd (by simp [hpe]) mr 0
    simp [process_note, execute_phase_retry, execStep, hrr, hpe, WorkflowState.start,
      WorkflowState.fail, PhaseResult.mark_running, PhaseResult.mark_failed]
  · intro ag mr b note pid payer proc skip wid pd dc p e hd hpd hpdc hc hpe
    have h1 : run_with_retry (ag.structure_note note) mr b = (.ok pd, [REv.call 0]) :=
      retryAux_first_ok _ b 0 mr pd (hd 0) hpd
    have hrr2 : (run_with_retry (ag.suggest_codes dc) mr b).1 = .ok p :=
      retryAux_const_fail _ b p (fun k => hc dc k) (by simp [hpe]) mr 0
    simp [process_note, execute_phase_retry, execStep, h1, hpd, hpdc, hrr2, hpe,
      WorkflowState.start, WorkflowState.fail, PhaseResult.mark_running,
      PhaseResult.mark_failed, PhaseResult.mark_completed]
  · intro ag mr b note pid payer proc skip wid pd pc dc cc p e hd hpd hpdc hc hpc hpcc hv hpe
    have h1 : run_with_retry (ag.structure_note note) mr b = (.ok pd, [REv.call 0]) :=
      retryAux_first_ok _ b 0 mr pd (hd 0) hpd
    have h2 : run_with_retry (ag.suggest_codes dc) mr b = (.ok pc, [REv.call 0]) :=
      retryAux_first_ok _ b 0 mr pc (hc dc 0) hpc
    have hrr3 : (run_with_retry (ag.validate dc cc) mr b).1 = .ok p :=
      retryAux_const_fail _ b p (fun k => hv dc cc k) (by simp [hpe]) mr 0
    simp [process_note, execute_phase_retry, execStep, h1, hpd, hpdc, h2, hpc, hpcc,
      hrr3, hpe, WorkflowState.start, WorkflowState.fail, PhaseResult.mark_running,
      PhaseResult.mark_failed, PhaseResult.mark_completed]

/-- Agents whose documentation agent always returns a failure payload. -/
def agFailDoc : Agents := { agOK with structure_note := fun _ _ => .ok errPayload }

/-- Witness for C3 at a concrete documentation-failure run. -/
theorem C3_early_phase_failure_fatal_witness :
    (process_note agFailDoc 3 1 "note" none (some "Medicare") (some "99214") false "wf").1.status
        = .failed ∧
    (process_note agFailDoc 3 1 "note" none (some "Medicare") (some "99214") false "wf").1.coding.status
        = .pending ∧
    (process_note agFailDoc 3 1 "note" none (some "Medicare") (some "99214") false "wf").1.quality_assurance.status
        = .pending := by
  have h := C3_early_phase_failure_fatal.1 agFailDoc 3 1 "note" none (some "Medicare")
    (some "99214") false "wf" errPayload "API error: rate limit" (fun k => rfl) rfl
  exact ⟨h.1, h.2.2.2.1, h.2.2.2.2.2.2.1⟩

/-! ### More execute_phase / qaStep structure lemmas -/

/-- `execute_phase` returns (or re-raises) exactly what the invocation produced. -/
theorem execStep_ret (p : PhaseResult) (rr : Except String Payload × List REv) (t : Nat) :
    (execStep p rr t).ret = rr.1 := by
  obtain ⟨r, evs⟩ := rr
  cases r with
  | error e => simp [execStep]
  | ok q => cases hq : q.error <;> simp [execStep, hq]

/-- The transition log of one `execute_phase` call is always entering Running followed
by leaving Running (for Failed or Completed). -/
theorem execStep_trans_eq (p : PhaseResult) (rr : Except String Payload × List REv)
    (t : Nat) :
    ∃ last, (execStep p rr t).trans =
      [(p.phase_name, p.status, PhaseStatus.running),
       (p.phase_name, PhaseStatus.running, last)] := by
  obtain ⟨r, evs⟩ := rr
  cases r with
  | error e => exact ⟨.failed, by simp [execStep]⟩
  | ok q =>
    cases hq : q.error with
    | none => exact ⟨.completed, by simp [execStep, hq]⟩
    | some e => exact ⟨.failed, by simp [execStep, hq]⟩

/-- Whatever the QA agent does, the log produced by the QA step is the incoming log
followed by the QA status transitions. -/
theorem qaStep_snd (ag : Agents) (mr : Nat) (b : ℚ) (note d c v : String)
    (st : WorkflowState) (log : List TransEv) :
    (qaStep ag mr b note d c v st log).2 =
      log ++ (execStep st.quality_assurance
        (run_with_retry (ag.review note d c v) mr b) 9).trans := by
  simp only [qaStep, execute_phase_retry]
  repeat' split
  all_goals simp

/-! ### C4: conditional prior authorization, non-fatal failure -/

/-- C4: in a full-mode run whose documentation, coding and compliance phases succeed
cleanly, `prior_auth` is executed if and only if `skip_prior_auth` is false and payer
and procedure are both present (Python-truthy); otherwise its record is marked
Skipped and the executor is never invoked (no Running transition for `prior_auth` is
ever logged) and the workflow still completes; and a `prior_auth` failure payload is
non-fatal: `quality_assurance` still runs and the workflow finishes Completed. -/
theorem C4_prior_auth_conditional :
    ∀ (ag : Agents) (mr : Nat) (b : ℚ) (note : String) (pid payer proc : Option String)
      (skip : Bool) (wid : String) (pd pc pv pq : Payload) (dc cc vc : String),
      (∀ k, ag.structure_note note k = .ok pd) → pd.error = none → pd.content = some dc →
      (∀ s k, ag.suggest_codes s k = .ok pc) → pc.error = none → pc.content = some cc →
      (∀ s t k, ag.validate s t k = .ok pv) → pv.error = none → pv.content = some vc →
      (∀ a c d e k, ag.review a c d e k = .ok pq) → pq.error = none →
      (((!skip && !falsy payer && !falsy proc) = false →
        (process_note ag mr b note pid payer proc skip wid).1.prior_auth.status = .skipped ∧
        (∀ s, (("prior_auth" : String), s, PhaseStatus.running) ∉
          (process_note ag mr b note pid payer proc skip wid).2) ∧
        (process_note ag mr b note pid payer proc skip wid).1.status = .completed) ∧
       ((!skip && !falsy payer && !falsy proc) = true →
        (("prior_auth" : String), PhaseStatus.pending, PhaseStatus.running) ∈
          (process_note ag mr b note pid payer proc skip wid).2) ∧
       ((!skip && !falsy payer && !falsy proc) = true →
        ∀ (pa : Payload) (e : String),
          (∀ x y z k, ag.assess_authorization x y z k = .ok pa) → pa.error = some e →
          (process_note ag mr b note pid payer proc skip wid).1.status = .completed ∧
          (process_note ag mr b note pid payer proc skip wid).1.prior_auth.status = .failed ∧
          (process_note ag mr b note pid payer proc skip wid).1.prior_auth.error = some e ∧
          (process_note ag mr b note pid payer proc skip wid).1.quality_assurance.status
            = .completed)) := by
  intro ag mr b note pid payer proc skip wid pd pc pv pq dc cc vc
  intro hd hpd hpdc hc hpc hpcc hv hpv hpvc hq hpq
  have h1 : run_with_retry (ag.structure_note note) mr b = (.ok pd, [REv.call 0]) :=
    retryAux_first_ok _ b 0 mr pd (hd 0) hpd
  have h2 : run_with_retry (ag.suggest_codes dc) mr b = (.ok pc, [REv.call 0]) :=
    retryAux_first_ok _ b 0 mr pc (hc dc 0) hpc
  have h3 : run_with_retry (ag.validate dc cc) mr b = (.ok pv, [REv.call 0]) :=
    retryAux_first_ok _ b 0 mr pv (hv dc cc 0) hpv
  have h5 : run_with_retry (ag.review note dc cc vc) mr b = (.ok pq, [REv.call 0]) :=
    retryAux_first_ok _ b 0 mr pq (hq note dc cc vc 0) hpq
  refine ⟨?_, ?_, ?_⟩
  · intro hcond
    simp [process_note, qaStep, execute_phase_retry, execStep, h1, hpd, hpdc, h2, hpc,
      hpcc, h3, hpv, hpvc, h5, hpq, hcond, WorkflowState.start, WorkflowState.complete,
      PhaseResult.mark_running, PhaseResult.mark_completed, PhaseResult.mark_skipped]
  · intro hcond
    cases h4 : (run_with_retry
        (ag.assess_authorization (proc.getD "") (payer.getD "") dc) mr b).1 with
    | error e4 =>
      simp [process_note, qaStep, execute_phase_retry, execStep_ret, h1, hpd, hpdc, h2,
        hpc, hpcc, h3, hpv, hpvc, hcond, h4, execStep, WorkflowState.start,
        WorkflowState.fail, PhaseResult.mark_running, PhaseResult.mark_completed]
    | ok q4 =>
      cases hq4 : q4.error with
      | none =>
        simp [process_note, qaStep, execute_phase_retry, execStep_ret, h1, hpd, hpdc,
          h2, hpc, hpcc, h3, hpv, hpvc, h5, hpq, hcond, h4, hq4, execStep,
          WorkflowState.start, WorkflowState.complete, PhaseResult.mark_running,
          PhaseResult.mark_completed]
      | some e4 =>
        simp [process_note, qaStep, execute_phase_retry, execStep_ret, h1, hpd, hpdc,
          h2, hpc, hpcc, h3, hpv, hpvc, h5, hpq, hcond, h4, hq4, execStep,
          WorkflowState.start, WorkflowState.complete, PhaseResult.mark_running,
          PhaseResult.mark_completed, PhaseResult.mark_failed]
  · intro hcond pa e hpa hpae
    have h4 : (run_with_retry
        (ag.assess_authorization (proc.getD "") (payer.getD "") dc) mr b).1 = .ok pa :=
      retryAux_const_fail _ b pa (fun k => hpa _ _ _ k) (by simp [hpae]) mr 0
    simp [process_note, qaStep, execute_phase_retry, execStep, h1, hpd, hpdc, h2, hpc,
      hpcc, h3, hpv, hpvc, h5, hpq, hcond, h4, hpae, WorkflowState.start,
      WorkflowState.complete, PhaseResult.mark_running, PhaseResult.mark_completed,
      PhaseResult.mark_failed]

/-- Witness for C4: concrete run with `skip_prior_auth = false` but `payer = none`:
prior_auth ends Skipped and the workflow still completes. -/
theorem C4_prior_auth_conditional_witness :
    (process_note agOK 3 1 "note" none none (some "99214") false "wf").1.prior_auth.status
        = .skipped ∧
    (process_note agOK 3 1 "note" none none (some "99214") false "wf").1.status
        = .completed := by
  have h := (C4_prior_auth_conditional agOK 3 1 "note" none none (some "99214") false "wf"
    okPayload okPayload okPayload okPayload "generated" "generated" "generated"
    (fun k => rfl) rfl rfl (fun s k => rfl) rfl rfl (fun s t k => rfl) rfl rfl
    (fun a c d e k => rfl) rfl).1 rfl
  exact ⟨h.1, h.2.2⟩

/-! ### C5: quality assurance last, NeedsReview on QA failure -/

/-- Agents whose prior-authorization agent raises a hard fault. -/
def agRaisePA : Agents :=
  { agOK with assess_authorization := fun _ _ _ _ => .error "transport failure" }

/-- C5 counterexample: documentation, coding and compliance all succeed, but a raised
fault from the prior-authorization agent aborts the run (outer exception handler sets
the workflow Failed), so quality assurance is never attempted: its record stays
Pending and no Running transition for it is ever logged.  Hence "whenever the first
three phases succeed, quality_assurance is always attempted last" is false as stated. -/
theorem C5_counterexample :
    (process_note agRaisePA 0 1 "note" none (some "Medicare") (some "99214") false "wf").1.documentation.status = .completed ∧
    (process_note agRaisePA 0 1 "note" none (some "Medicare") (some "99214") false "wf").1.coding.status = .completed ∧
    (process_note agRaisePA 0 1 "note" none (some "Medicare") (some "99214") false "wf").1.compliance.status = .completed ∧
    (process_note agRaisePA 0 1 "note" none (some "Medicare") (some "99214") false "wf").1.quality_assurance.status = .pending ∧
    (process_note agRaisePA 0 1 "note" none (some "Medicare") (some "99214") false "wf").1.status = .failed ∧
    (("quality_assurance" : String), PhaseStatus.pending, PhaseStatus.running) ∉
      (process_note agRaisePA 0 1 "note" none (some "Medicare") (some "99214") false "wf").2 := by
  decide

/-- C5 amended: whenever documentation, coding and compliance all succeed cleanly and
the prior-authorization agent, if executed, does not raise a hard fault,
quality_assurance is always attempted last (its Running transition is logged and the
final logged event belongs to it); a graceful QA failure payload sets the workflow
NeedsReview (not Failed) with the earlier records still Completed, and a clean QA
success completes the workflow with a completion timestamp. -/
theorem C5_qa_last (ag : Agents) (mr : Nat) (b : ℚ) (note : String)
    (pid payer proc : Option String) (skip : Bool) (wid : String)
    (pd pc pv : Payload) (dc cc vc : String)
    (hd : ∀ k, ag.structure_note note k = .ok pd) (hpd : pd.error = none)
    (hpdc : pd.content = some dc)
    (hc : ∀ s k, ag.suggest_codes s k = .ok pc) (hpc : pc.error = none)
    (hpcc : pc.content = some cc)
    (hv : ∀ s t k, ag.validate s t k = .ok pv) (hpv : pv.error = none)
    (hpvc : pv.content = some vc)
    (hpa : ∀ x y z k, ∃ q, ag.assess_authorization x y z k = .ok q) :
    ((("quality_assurance" : String), PhaseStatus.pending, PhaseStatus.running) ∈
        (process_note ag mr b note pid payer proc skip wid).2 ∧
      ((process_note ag mr b note pid payer proc skip wid).2.getLast?).map
        (fun ev => ev.1) = some "quality_assurance") ∧
    (∀ (pq : Payload) (e : String),
      (∀ a c d f k, ag.review a c d f k = .ok pq) → pq.error = some e →
      (process_note ag mr b note pid payer proc skip wid).1.status = .needs_review ∧
      (process_note ag mr b note pid payer proc skip wid).1.documentation.status = .completed ∧
      (process_note ag mr b note pid payer proc skip wid).1.coding.status = .completed ∧
      (process_note ag mr b note pid payer proc skip wid).1.compliance.status = .completed ∧
      (process_note ag mr b note pid payer proc skip wid).1.quality_assurance.status = .failed ∧
      (process_note ag mr b note pid payer proc skip wid).1.quality_assurance.error = some e) ∧
    (∀ (pq : Payload),
      (∀ a c d f k, ag.review a c d f k = .ok pq) → pq.error = none →
      (process_note ag mr b note pid payer proc skip wid).1.status = .completed ∧
      (process_note ag mr b note pid payer proc skip wid).1.completed_at.isSome = true) := by
  have h1 : run_with_retry (ag.structure_note note) mr b = (.ok pd, [REv.call 0]) :=
    retryAux_first_ok _ b 0 mr pd (hd 0) hpd
  have h2 : run_with_retry (ag.suggest_codes dc) mr b = (.ok pc, [REv.call 0]) :=
    retryAux_first_ok _ b 0 mr pc (hc dc 0) hpc
  have h3 : run_with_retry (ag.validate dc cc) mr b = (.ok pv, [REv.call 0]) :=
    retryAux_first_ok _ b 0 mr pv (hv dc cc 0) hpv
  refine ⟨?_, ?_, ?_⟩
  · cases hcond : (!skip && !falsy payer && !falsy proc) with
    | false =>
      cases h5r : (run_with_retry (ag.review note dc cc vc) mr b).1 with
      | error e5 =>
        simp [process_note, qaStep, execute_phase_retry, execStep, h1, hpd, hpdc, h2,
          hpc, hpcc, h3, hpv, hpvc, hcond, h5r, WorkflowState.start, WorkflowState.fail,
          PhaseResult.mark_running, PhaseResult.mark_completed, PhaseResult.mark_skipped,
          List.getLast?]
      | ok q5 =>
        cases hq5 : q5.error <;>
          simp [process_note, qaStep, execute_phase_retry, execStep, h1, hpd, hpdc, h2,
            hpc, hpcc, h3, hpv, hpvc, hcond, h5r, hq5, WorkflowState.start,
            WorkflowState.complete, PhaseResult.mark_running, PhaseResult.mark_completed,
            PhaseResult.mark_skipped, PhaseResult.mark_failed, List.getLast?]
    | true =>
      obtain ⟨q4, hq4⟩ := retryAux_no_raise
        (ag.assess_authorization (proc.getD "") (payer.getD "") dc) b mr 0
        (fun k => hpa _ _ _ k)
      have hq4' : (run_with_retry
          (ag.assess_authorization (proc.getD "") (payer.getD "") dc) mr b).1
            = .ok q4 := hq4
      cases h5r : (run_with_retry (ag.review note dc cc vc) mr b).1 with
      | error e5 =>
        cases hqe4 : q4.error <;>
          simp [process_note, qaStep, execute_phase_retry, execStep, h1, hpd, hpdc, h2,
            hpc, hpcc, h3, hpv, hpvc, hcond, hq4', hqe4, h5r, WorkflowState.start,
            WorkflowState.fail, PhaseResult.mark_running, PhaseResult.mark_completed,
            PhaseResult.mark_failed, List.getLast?]
      | ok q5 =>
        cases hq5 : q5.error <;> cases hqe4 : q4.error <;>
          simp [process_note, qaStep, execute_phase_retry, execStep, h1, hpd, hpdc, h2,
            hpc, hpcc, h3, hpv, hpvc, hcond, hq4', hqe4, h5r, hq5, WorkflowState.start,
            WorkflowState.complete, PhaseResult.mark_running, PhaseResult.mark_completed,
            PhaseResult.mark_failed, List.getLast?]
  · intro pq e hrev hpqe
    have h5 : (run_with_retry (ag.review note dc cc vc) mr b).1 = .ok pq :=
      retryAux_const_fail _ b pq (fun k => hrev note dc cc vc k) (by simp [hpqe]) mr 0
    cases hcond : (!skip && !falsy payer && !falsy proc) with
    | false =>
      simp [process_note, qaStep, execute_phase_retry, execStep, h1, hpd, hpdc, h2,
        hpc, hpcc, h3, hpv, hpvc, hcond, h5, hpqe, WorkflowState.start,
        PhaseResult.mark_running, PhaseResult.mark_completed, PhaseResult.mark_skipped,
        PhaseResult.mark_failed]
    | true =>
      obtain ⟨q4, hq4⟩ := retryAux_no_raise
        (ag.assess_authorization (proc.getD "") (payer.getD "") dc) b mr 0
        (fun k => hpa _ _ _ k)
      have hq4' : (run_with_retry
          (ag.assess_authorization (proc.getD "") (payer.getD "") dc) mr b).1
            = .ok q4 := hq4
      cases hqe4 : q4.error <;>
        simp [process_note, qaStep, execute_phase_retry, execStep, h1, hpd, hpdc, h2,
          hpc, hpcc, h3, hpv, hpvc, hcond, hq4', hqe4, h5, hpqe, WorkflowState.start,
          PhaseResult.mark_running, PhaseResult.mark_completed, PhaseResult.mark_failed]
  · intro pq hrev hpqe
    have h5 : run_with_retry (ag.review note dc cc vc) mr b = (.ok pq, [REv.call 0]) :=
      retryAux_first_ok _ b 0 mr pq (hrev note dc cc vc 0) hpqe
    cases hcond : (!skip && !falsy payer && !falsy proc) with
    | false =>
      simp [process_note, qaStep, execute_phase_retry, execStep, h1, hpd, hpdc, h2,
        hpc, hpcc, h3, hpv, hpvc, hcond, h5, hpqe, WorkflowState.start,
        WorkflowState.complete, PhaseResult.mark_running, PhaseResult.mark_completed,
        PhaseResult.mark_skipped]
    | true =>
      obtain ⟨q4, hq4⟩ := retryAux_no_raise
        (ag.assess_authorization (proc.getD "") (payer.getD "") dc) b mr 0
        (fun k => hpa _ _ _ k)
      have hq4' : (run_with_retry
          (ag.assess_authorization (proc.getD "") (payer.getD "") dc) mr b).1
            = .ok q4 := hq4
      cases hqe4 : q4.error <;>
        simp [process_note, qaStep, execute_phase_retry, execStep, h1, hpd, hpdc, h2,
          hpc, hpcc, h3, hpv, hpvc, hcond, hq4', hqe4, h5, hpqe, WorkflowState.start,
          WorkflowState.complete, PhaseResult.mark_running, PhaseResult.mark_completed,
          PhaseResult.mark_failed]

/-- Agents that succeed for the first three phases and fail QA gracefully. -/
def agFailQA : Agents := { agOK with review := fun _ _ _ _ _ => .ok errPayload }

/-- Witness for C5 (amended) at a concrete graceful-QA-failure run. -/
theorem C5_qa_last_witness :
    (process_note agFailQA 3 1 "note" none none none true "wf").1.status = .needs_review ∧
    (process_note agFailQA 3 1 "note" none none none true "wf").1.documentation.status
      = .completed := by
  have h := (C5_qa_last agFailQA 3 1 "note" none none none true "wf"
    okPayload okPayload okPayload "generated" "generated" "generated"
    (fun k => rfl) rfl rfl (fun s k => rfl) rfl rfl (fun s t k => rfl) rfl rfl
    (fun x y z k => ⟨okPayload, rfl⟩)).2.1 errPayload "API error: rate limit"
    (fun a c d f k => rfl) rfl
  exact ⟨h.1, h.2.1⟩

/-! ### C8: run_single_phase result shape -/

/-- The external agent contract (§6 of the design): a returned failure payload names
its agent; a clean payload carries content and usage. -/
def WellFormedPayload (p : Payload) : Prop :=
  (p.error.isSome → p.agent.isSome) ∧
  (p.error = none → p.content.isSome ∧ p.usage.isSome)

/-- All five agent behaviours satisfy the payload contract on every normal return. -/
def WellFormedAgents (ag : Agents) : Prop :=
  (∀ a k p, ag.structure_note a k = .ok p → WellFormedPayload p) ∧
  (∀ a k p, ag.suggest_codes a k = .ok p → WellFormedPayload p) ∧
  (∀ a c k p, ag.validate a c k = .ok p → WellFormedPayload p) ∧
  (∀ a c d k p, ag.assess_authorization a c d k = .ok p → WellFormedPayload p) ∧
  (∀ a c d f k p, ag.review a c d f k = .ok p → WellFormedPayload p)

theorem finishSingle_shape (pn : String) (dur : ℚ) (r : Except String Payload)
    (hr : ∀ p, r = .ok p → WellFormedPayload p) :
    ((finishSingle pn dur r).error = none →
      (finishSingle pn dur r).content.isSome ∧ (finishSingle pn dur r).usage.isSome ∧
      (finishSingle pn dur r).duration_seconds.isSome) ∧
    ((finishSingle pn dur r).error.isSome → (finishSingle pn dur r).agent.isSome) := by
  cases r with
  | error e => simp [finishSingle]
  | ok p =>
    have hp := hr p rfl
    cases hpe : p.error with
    | none =>
      refine ⟨fun _ => ?_, fun hs => ?_⟩
      · simpa [finishSingle, hpe] using hp.2 hpe
      · simp [finishSingle, hpe] at hs
    | some e =>
      refine ⟨fun hn => ?_, fun _ => ?_⟩
      · simp [finishSingle, hpe] at hn
      · simpa [finishSingle, hpe] using hp.1 (by simp [hpe])

/-- C8 counterexample: a coding request without documentation output (a precondition
failure, explicitly covered by the claim) returns `{error, agent}` with no
`duration_seconds` key, so the graceful-failure dict does not always contain a
duration.  (Raised faults, moreover, never propagate: see the amended theorem.) -/
theorem C8_counterexample :
    (run_single_phase agOK "coding" "note" [] none none 1).duration_seconds = none ∧
    (run_single_phase agOK "coding" "note" [] none none 1).error =
      some "Documentation phase must be completed first" ∧
    (run_single_phase agOK "coding" "note" [] none none 1).agent =
      some "medical_coding" := by
  decide

/-- C8 amended: for agents obeying the payload contract, `run_single_phase` returns a
dict with content, usage and duration whenever no error is reported, and every failure
dict names an agent (first two conjuncts, over every phase name and input).  Every
execution falls into one of the remaining conjuncts, which cover all branches of the
dispatch: for each of the five phases, a raised fault from the dispatched agent is
caught and returned as `{error, agent := phase_name, duration_seconds}` (never
propagated), and a normal agent return — success or agent-reported failure payload —
is passed through unchanged with `duration_seconds` added; each of the four
precondition failures and the unknown-phase case returns its exact `{error, agent}`
dict with no `duration_seconds` key and no agent invocation. -/
theorem C8_run_single_phase (ag : Agents) (hwf : WellFormedAgents ag)
    (phase_name raw_note : String) (contents : List (String × String))
    (payer procedure : Option String) (dur : ℚ) :
    ((run_single_phase ag phase_name raw_note contents payer procedure dur).error = none →
      (run_single_phase ag phase_name raw_note contents payer procedure dur).content.isSome ∧
      (run_single_phase ag phase_name raw_note contents payer procedure dur).usage.isSome ∧
      (run_single_phase ag phase_name raw_note contents payer procedure dur).duration_seconds.isSome) ∧
    ((run_single_phase ag phase_name raw_note contents payer procedure dur).error.isSome →
      (run_single_phase ag phase_name raw_note contents payer procedure dur).agent.isSome) ∧
    (∀ e, ag.structure_note raw_note 0 = .error e →
      run_single_phase ag "documentation" raw_note contents payer procedure dur =
        { error := some e, agent := some "documentation", duration_seconds := some dur }) ∧
    (∀ e, (contentOf contents "documentation").isEmpty = false →
      ag.suggest_codes (contentOf contents "documentation") 0 = .error e →
      run_single_phase ag "coding" raw_note contents payer procedure dur =
        { error := some e, agent := some "coding", duration_seconds := some dur }) ∧
    (∀ e, ((contentOf contents "documentation").isEmpty ||
        (contentOf contents "coding").isEmpty) = false →
      ag.validate (contentOf contents "documentation") (contentOf contents "coding") 0
        = .error e →
      run_single_phase ag "compliance" raw_note contents payer procedure dur =
        { error := some e, agent := some "compliance", duration_seconds := some dur }) ∧
    (∀ e, ((contentOf contents "documentation").isEmpty || falsy payer ||
        falsy procedure) = false →
      ag.assess_authorization (procedure.getD "") (payer.getD "")
        (contentOf contents "documentation") 0 = .error e →
      run_single_phase ag "prior_auth" raw_note contents payer procedure dur =
        { error := some e, agent := some "prior_auth", duration_seconds := some dur }) ∧
    (∀ e, ((contentOf contents "documentation").isEmpty ||
        (contentOf contents "coding").isEmpty) = false →
      ag.review raw_note (contentOf contents "documentation") (contentOf contents "coding")
        (contentOf contents "compliance") 0 = .error e →
      run_single_phase ag "quality_assurance" raw_note contents payer procedure dur =
        { error := some e, agent := some "quality_assurance", duration_seconds := some dur }) ∧
    (∀ p, ag.structure_note raw_note 0 = .ok p →
      run_single_phase ag "documentation" raw_note contents payer procedure dur =
        { content := p.content, usage := p.usage, error := p.error, agent := p.agent,
          duration_seconds := some dur }) ∧
    (∀ p, (contentOf contents "documentation").isEmpty = false →
      ag.suggest_codes (contentOf contents "documentation") 0 = .ok p →
      run_single_phase ag "coding" raw_note contents payer procedure dur =
        { content := p.content, usage := p.usage, error := p.error, agent := p.agent,
          duration_seconds := some dur }) ∧
    (∀ p, ((contentOf contents "documentation").isEmpty ||
        (contentOf contents "coding").isEmpty) = false →
      ag.validate (contentOf contents "documentation") (contentOf contents "coding") 0
        = .ok p →
      run_single_phase ag "compliance" raw_note contents payer procedure dur =
        { content := p.content, usage := p.usage, error := p.error, agent := p.agent,
          duration_seconds := some dur }) ∧
    (∀ p, ((contentOf contents "documentation").isEmpty || falsy payer ||
        falsy procedure) = false →
      ag.assess_authorization (procedure.getD "") (payer.getD "")
        (contentOf contents "documentation") 0 = .ok p →
      run_single_phase ag "prior_auth" raw_note contents payer procedure dur =
        { content := p.content, usage := p.usage, error := p.error, agent := p.agent,
          duration_seconds := some dur }) ∧
    (∀ p, ((contentOf contents "documentation").isEmpty ||
        (contentOf contents "coding").isEmpty) = false →
      ag.review raw_note (contentOf contents "documentation") (contentOf contents "coding")
        (contentOf contents "compliance") 0 = .ok p →
      run_single_phase ag "quality_assurance" raw_note contents payer procedure dur =
        { content := p.content, usage := p.usage, error := p.error, agent := p.agent,
          duration_seconds := some dur }) ∧
    ((contentOf contents "documentation").isEmpty = true →
      run_single_phase ag "coding" raw_note contents payer procedure dur =
        { error := some "Documentation phase must be completed first",
          agent := some "medical_coding" }) ∧
    (((contentOf contents "documentation").isEmpty ||
        (contentOf contents "coding").isEmpty) = true →
      run_single_phase ag "compliance" raw_note contents payer procedure dur =
        { error := some "Documentation and Coding phases must be completed first",
          agent := some "compliance" }) ∧
    (((contentOf contents "documentation").isEmpty || falsy payer ||
        falsy procedure) = true →
      run_single_phase ag "prior_auth" raw_note contents payer procedure dur =
        { error := some "Documentation, payer, and procedure are required",
          agent := some "prior_authorization" }) ∧
    (((contentOf contents "documentation").isEmpty ||
        (contentOf contents "coding").isEmpty) = true →
      run_single_phase ag "quality_assurance" raw_note contents payer procedure dur =
        { error := some "Prior phases must be completed first",
          agent := some "quality_assurance" }) ∧
    (phase_name ∉ PHASE_ORDER →
      run_single_phase ag phase_name raw_note contents payer procedure dur =
        { error := some ("Unknown phase: " ++ phase_name),
          agent := some "coordinator" }) := by
  have hshape :
      ((run_single_phase ag phase_name raw_note contents payer procedure dur).error = none →
        (run_single_phase ag phase_name raw_note contents payer procedure dur).content.isSome ∧
        (run_single_phase ag phase_name raw_note contents payer procedure dur).usage.isSome ∧
        (run_single_phase ag phase_name raw_note contents payer procedure dur).duration_seconds.isSome) ∧
      ((run_single_phase ag phase_name raw_note contents payer procedure dur).error.isSome →
        (run_single_phase ag phase_name raw_note contents payer procedure dur).agent.isSome) := by
    simp only [run_single_phase]
    split_ifs <;>
      first
        | exact finishSingle_shape _ _ _ (fun p hp => hwf.1 _ _ p hp)
        | exact finishSingle_shape _ _ _ (fun p hp => hwf.2.1 _ _ p hp)
        | exact finishSingle_shape _ _ _ (fun p hp => hwf.2.2.1 _ _ _ p hp)
        | exact finishSingle_shape _ _ _ (fun p hp => hwf.2.2.2.1 _ _ _ _ p hp)
        | exact finishSingle_shape _ _ _ (fun p hp => hwf.2.2.2.2 _ _ _ _ _ p hp)
        | simp
  refine ⟨hshape.1, hshape.2, ?_, ?_, ?_, ?_, ?_, ?_, ?_, ?_, ?_, ?_, ?_, ?_, ?_, ?_, ?_⟩
  · intro e he
    simp [run_single_phase, finishSingle, he]
  · intro e hdoc he
    simp [run_single_phase, finishSingle, hdoc, he]
  · intro e hcond he
    simp only [Bool.or_eq_false_iff] at hcond
    simp [run_single_phase, finishSingle, hcond.1, hcond.2, he]
  · intro e hcond he
    simp only [Bool.or_eq_false_iff] at hcond
    simp [run_single_phase, finishSingle, hcond.1.1, hcond.1.2, hcond.2, he]
  · intro e hcond he
    simp only [Bool.or_eq_false_iff] at hcond
    simp [run_single_phase, finishSingle, hcond.1, hcond.2, he]
  · intro p hp
    simp [run_single_phase, finishSingle, hp]
  · intro p hdoc hp
    simp [run_single_phase, finishSingle, hdoc, hp]
  · intro p hcond hp
    simp only [Bool.or_eq_false_iff] at hcond
    simp [run_single_phase, finishSingle, hcond.1, hcond.2, hp]
  · intro p hcond hp
    simp only [Bool.or_eq_false_iff] at hcond
    simp [run_single_phase, finishSingle, hcond.1.1, hcond.1.2, hcond.2, hp]
  · intro p hcond hp
    simp only [Bool.or_eq_false_iff] at hcond
    simp [run_single_phase, finishSingle, hcond.1, hcond.2, hp]
  · intro hdoc
    simp [run_single_phase, hdoc]
  · intro hcond
    simp [run_single_phase, hcond]
  · intro hcond
    simp [run_single_phase, hcond]
  · intro hcond
    simp [run_single_phase, hcond]
  · intro hpn
    simp only [PHASE_ORDER, List.mem_cons, List.not_mem_nil, or_false, not_or] at hpn
    obtain ⟨h1, h2, h3, h4, h5⟩ := hpn
    simp [run_single_phase, h1, h2, h3, h4, h5]

/-- The always-clean agents satisfy the payload contract. -/
theorem agOK_wf : WellFormedAgents agOK := by
  refine ⟨fun a k p hp => ?_, fun a k p hp => ?_, fun a c k p hp => ?_,
    fun a c d k p hp => ?_, fun a c d f k p hp => ?_⟩ <;>
  · simp only [agOK, Except.ok.injEq] at hp
    subst hp
    simp [WellFormedPayload, okPayload]

/-- Witness for C8 (amended) at a concrete raised-fault documentation run. -/
theorem C8_run_single_phase_witness :
    run_single_phase
        { agOK with structure_note := fun _ _ => .error "connection reset" }
        "documentation" "note" [] none none 1 =
      { error := some "connection reset", agent := some "documentation",
        duration_seconds := some 1 } := by
  have hwf : WellFormedAgents { agOK with structure_note := fun _ _ => .error "connection reset" } := by
    refine ⟨fun a k p hp => by simp at hp, fun a k p hp => ?_, fun a c k p hp => ?_,
      fun a c d k p hp => ?_, fun a c d f k p hp => ?_⟩ <;>
    · simp only [agOK, Except.ok.injEq] at hp
      subst hp
      simp [WellFormedPayload, okPayload]
  exact (C8_run_single_phase _ hwf "documentation" "note" [] none none 1).2.2.1
    "connection reset" rfl

/-! ### C9 and C10: the approve endpoint -/

/-- C9: `approve_phase` succeeds only when the requested phase record is Completed —
any other record status is rejected with a 400 before any state is touched (the error
return carries no updated rows); on approval it stamps reviewer and timestamp on the
record, computes `get_next_phase`, and either advances `current_phase` with the
workflow status reset to Pending, or (no next phase) sets the workflow Completed with
a completion timestamp. -/
theorem C9_approve_phase :
    (∀ (wf : ApiWorkflow) (row : ApiPhaseRow) (pn : String) (u now : Nat),
      row.status ≠ .completed →
      approve_phase wf (some row) pn u now =
        .error (400, "Phase must be completed before approval")) ∧
    (∀ (wf : ApiWorkflow) (row : ApiPhaseRow) (pn : String) (u now : Nat),
      row.status = .completed →
      ∃ wf2 row2 nx, approve_phase wf (some row) pn u now = .ok (wf2, row2, nx) ∧
        row2 = { row with reviewed_at := some now, reviewed_by_user_id := some u } ∧
        nx = get_next_phase pn wf.skip_prior_auth wf.payer wf.procedure ∧
        (∀ np, nx = some np → wf2.current_phase = np ∧ wf2.status = .pending ∧
          wf2.completed_at = wf.completed_at) ∧
        (nx = none → wf2.current_phase = "done" ∧ wf2.status = .completed ∧
          wf2.completed_at = some now)) := by
  constructor
  · intro wf row pn u now h
    simp [approve_phase, h]
  · intro wf row pn u now h
    cases hnx : get_next_phase pn wf.skip_prior_auth wf.payer wf.procedure with
    | none =>
      refine ⟨{ wf with current_phase := "done", status := WorkflowStatus.completed, completed_at := some now }, { row with reviewed_at := some now, reviewed_by_user_id := some u }, none, ?_, rfl, rfl, by simp, fun _ => ⟨rfl, rfl, rfl⟩⟩
      simp [approve_phase, h, hnx]
    | some np =>
      refine ⟨{ wf with current_phase := np, status := WorkflowStatus.pending }, { row with reviewed_at := some now, reviewed_by_user_id := some u }, some np, ?_, rfl, rfl, ?_, by simp⟩
      · simp [approve_phase, h, hnx]
      · intro np2 hnp2
        cases hnp2
        exact ⟨rfl, rfl, rfl⟩

/-- Witness for C9: a record that is still Pending is rejected with a 400. -/
theorem C9_approve_phase_witness :
    approve_phase
        { current_phase := "documentation", status := .needs_review,
          skip_prior_auth := false, payer := some "Medicare",
          procedure := some "99214" }
        (some { phase_name := "documentation", status := PhaseStatus.pending })
        "documentation" 7 42 =
      .error (400, "Phase must be completed before approval") :=
  C9_approve_phase.1
    { current_phase := "documentation", status := .needs_review,
      skip_prior_auth := false, payer := some "Medicare", procedure := some "99214" }
    { phase_name := "documentation", status := PhaseStatus.pending }
    "documentation" 7 42 (by decide)

/-- C10: `approve_phase` never consults the workflow's `current_phase`: any phase
whose record is Completed can be approved regardless of the pointer, and the approval
overwrites `current_phase` with the approved phase's successor — so re-approving an
earlier completed phase moves the pointer backward (second conjunct: with
`current_phase = "compliance"`, approving the completed `documentation` record resets
the pointer to `"coding"`, an earlier phase). -/
theorem C10_approve_phase_no_pointer_check :
    (∀ (wf : ApiWorkflow) (row : ApiPhaseRow) (pn : String) (u now : Nat),
      row.status = .completed →
      ∃ wf2 row2 nx, approve_phase wf (some row) pn u now = .ok (wf2, row2, nx) ∧
        wf2.current_phase =
          (get_next_phase pn wf.skip_prior_auth wf.payer wf.procedure).getD "done") ∧
    (approve_phase
        { current_phase := "compliance", status := .pending, skip_prior_auth := false,
          payer := some "Medicare", procedure := some "99214" }
        (some { phase_name := "documentation", status := .completed })
        "documentation" 7 42 =
      .ok ({ current_phase := "coding", status := .pending, skip_prior_auth := false,
             payer := some "Medicare", procedure := some "99214" },
           { phase_name := "documentation", status := .completed,
             reviewed_at := some 42, reviewed_by_user_id := some 7 },
           some "coding") ∧
     PHASE_ORDER.indexOf "coding" < PHASE_ORDER.indexOf "compliance") := by
  constructor
  · intro wf row pn u now h
    cases hnx : get_next_phase pn wf.skip_prior_auth wf.payer wf.procedure with
    | none =>
      refine ⟨{ wf with current_phase := "done", status := WorkflowStatus.completed, completed_at := some now }, { row with reviewed_at := some now, reviewed_by_user_id := some u }, none, ?_, by simp [hnx]⟩
      simp [approve_phase, h, hnx]
    | some np =>
      refine ⟨{ wf with current_phase := np, status := WorkflowStatus.pending }, { row with reviewed_at := some now, reviewed_by_user_id := some u }, some np, ?_, by simp [hnx]⟩
      simp [approve_phase, h, hnx]
  · constructor
    · rfl
    · decide

/-- Witness for C10 at the same concrete store state as its second conjunct. -/
theorem C10_approve_phase_no_pointer_check_witness :
    ∃ wf2 row2 nx,
      approve_phase
          { current_phase := "quality_assurance", status := .pending,
            skip_prior_auth := false, payer := none, procedure := none }
          (some { phase_name := "coding", status := .completed }) "coding" 3 9 =
        .ok (wf2, row2, nx) ∧
      wf2.current_phase = "compliance" :=
  let h := C10_approve_phase_no_pointer_check.1
    { current_phase := "quality_assurance", status := .pending,
      skip_prior_auth := false, payer := none, procedure := none }
    { phase_name := "coding", status := .completed } "coding" 3 9 rfl
  ⟨h.choose, h.choose_spec.choose, h.choose_spec.choose_spec.choose,
   h.choose_spec.choose_spec.choose_spec.1,
   h.choose_spec.choose_spec.choose_spec.2⟩
